import Mathlib

/-!
Shallow embedding of `env_canada/ec_historical.py` (historical weather data
retrieval from Environment Canada) and proofs about its parsing core.

The HTTP layer is external; the embedding models the code from the point
where a response body (already fetched) is parsed:
  * XML mode: the body parsed by `xml.etree.ElementTree` is modelled as an
    `XmlElem` tree given as input,
  * CSV mode: the body is a `String`.
Python dictionaries are modelled as association lists with Python's
insertion-order update semantics; a raised exception is modelled by
`Except.error` (the partially-mutated state left behind by an exception
mid-`update` is not modelled; all theorems below concern calls that
complete successfully, or the fact that an exception is raised at all).
-/

deriving instance DecidableEq for Except

/-- Python exception kinds that the modelled code can raise. -/
inductive PyErr : Type where
  | valueError
  | typeError
  | indexError
  | keyError
  | attributeError
  | stopIteration
  | parseError
  | validationError
  deriving DecidableEq, Repr

/-- A Python value as it appears in the parsed records: `None`, an `int`,
a `float` (modelled by its exact rational value; every literal the claims
mention is exactly representable), or a `str`. -/
inductive PyVal : Type where
  | none
  | int (n : Int)
  | float (q : Rat)
  | str (s : String)
  deriving DecidableEq, Repr

/-- Python-dict lookup on an association list (first binding wins; a Python
dict holds each key once, which `dictInsert` maintains). -/
def dictGet {κ V : Type} [DecidableEq κ] : List (κ × V) → κ → Option V
  | [], _ => Option.none
  | kv :: rest, k => if kv.1 = k then some kv.2 else dictGet rest k

/-- Python-dict assignment `d[k] = v`: replaces the value in place when the
key exists, appends a new binding otherwise (Python's insertion order). -/
def dictInsert {κ V : Type} [DecidableEq κ] : List (κ × V) → κ → V → List (κ × V)
  | [], k, v => [(k, v)]
  | kv :: rest, k, v =>
    if kv.1 = k then (k, v) :: rest else kv :: dictInsert rest k v

/-- An XML element as produced by `xml.etree.ElementTree`: tag, attributes,
text (`none` when the element has no text, as ElementTree reports for empty
elements), children. -/
inductive XmlElem : Type where
  | mk (tag : String) (attrib : List (String × String)) (text : Option String)
      (children : List XmlElem)

def XmlElem.tag : XmlElem → String
  | .mk t _ _ _ => t

def XmlElem.attrib : XmlElem → List (String × String)
  | .mk _ a _ _ => a

def XmlElem.text : XmlElem → Option String
  | .mk _ _ t _ => t

def XmlElem.children : XmlElem → List XmlElem
  | .mk _ _ _ c => c

/-- `element.attrib.get(k)`. -/
def attribGet (el : XmlElem) (k : String) : Option String :=
  dictGet el.attrib k

/-- `element.find("./tag")`: first direct child with the given tag. -/
def findChild (el : XmlElem) (tag : String) : Option XmlElem :=
  el.children.find? (fun c => c.tag = tag)

/-- `element.find(path)` for the relative paths used by the registries
(`./a` or `./a/b`), represented as the list of tag components. -/
def findPath (el : XmlElem) : List String → Option XmlElem
  | [] => some el
  | t :: ts => (findChild el t).bind (fun c => findPath c ts)

/-- `element.findall("./stationdata")`: all direct children with that tag. -/
def findAllChildren (el : XmlElem) (tag : String) : List XmlElem :=
  el.children.filter (fun c => c.tag = tag)

/-- Split a character list at every occurrence of `sep` (the semantics of
`str.split(sep)` for a one-character separator). -/
def splitOnChar (sep : Char) : List Char → List (List Char)
  | [] => [[]]
  | c :: rest =>
    let r := splitOnChar sep rest
    if c = sep then [] :: r
    else
      match r with
      | [] => [[c]]
      | g :: gs => (c :: g) :: gs

def digitsToNatAux : List Char → Nat → Option Nat
  | [], acc => some acc
  | c :: rest, acc =>
    if c.isDigit then digitsToNatAux rest (acc * 10 + (c.toNat - ('0').toNat))
    else Option.none

/-- The numeric value of a non-empty all-digit character list. -/
def digitsToNat? : List Char → Option Nat
  | [] => Option.none
  | cs => digitsToNatAux cs 0

/-- Parse a string of decimal digits (used where the source delegates to the
standard numeral parsers). -/
def strToNat? (s : String) : Option Nat :=
  digitsToNat? s.data

/-- Model of Python `int(s)` restricted to an optional sign followed by
digits (Python additionally strips whitespace and allows `_` separators;
those inputs do not occur in the claims and are modelled as failures). -/
def pyInt? (s : String) : Option Int :=
  match s.data with
  | '-' :: rest => (digitsToNat? rest).map (fun n => -(n : Int))
  | '+' :: rest => (digitsToNat? rest).map (fun n => (n : Int))
  | cs => (digitsToNat? cs).map (fun n => (n : Int))

/-- Decimal core of `float(s)`: `digits`, `digits.digits`, `.digits` or
`digits.` with at least one digit overall, as an exact rational. -/
def parseDecimal? (cs : List Char) : Option Rat :=
  match splitOnChar ('.') cs with
  | [ip] => (digitsToNat? ip).map (fun n => (n : Rat))
  | [ip, fp] =>
    if ip = [] then
      (digitsToNat? fp).map (fun n => (n : Rat) / ((10 : Rat) ^ fp.length))
    else if fp = [] then
      (digitsToNat? ip).map (fun n => (n : Rat))
    else
      match digitsToNat? ip, digitsToNat? fp with
      | some i, some f => some ((i : Rat) + (f : Rat) / ((10 : Rat) ^ fp.length))
      | _, _ => Option.none
  | _ => Option.none

/-- Model of Python `float(s)` restricted to plain signed decimal literals
(no exponent, `inf` or `nan`, which the claims never exercise); the value is
the literal's exact rational value. -/
def pyFloat? (s : String) : Option Rat :=
  match s.data with
  | '-' :: rest => (parseDecimal? rest).map (fun q => -q)
  | '+' :: rest => parseDecimal? rest
  | cs => parseDecimal? cs

/-- `text.replace(",", ".")` (line 303): replace every comma with a
period. -/
def replaceComma (s : String) : String :=
  String.mk (s.data.map (fun c => if c = ',' then '.' else c))

/-- One entry of the `stationdata_meta` registry: lookup path, declared value
type, display units, bilingual labels, and the optional `attribute` override
mechanism (`attrOverride`; no registered entry carries it, and a Python-falsy
override — absent key, `None`, or `""` — is modelled by `none` / `some ""`
being treated as the code's truthiness check treats them). -/
structure FieldMeta : Type where
  xpath : List String
  vtype : String
  units : String
  english : String
  french : String
  attrOverride : Option String := Option.none
  deriving DecidableEq, Repr

/-- The fixed `stationdata_meta` registry of the 11 measurement kinds
(insertion order of the source dict). -/
def stationdata_meta : List (String × FieldMeta) :=
  [ ("maxtemp",
      { xpath := ["maxtemp"], vtype := "float", units := "°C",
        english := "Maximum Temperature", french := "Température maximale" }),
    ("mintemp",
      { xpath := ["mintemp"], vtype := "float", units := "°C",
        english := "Minimum Temperature", french := "Température minimale" }),
    ("meantemp",
      { xpath := ["meantemp"], vtype := "float", units := "°C",
        english := "Mean Temperature", french := "Température moyenne" }),
    ("heatdegdays",
      { xpath := ["heatdegdays"], vtype := "float", units := "°C",
        english := "Heating Degree Days", french := "Degré-jour de chauffage" }),
    ("cooldegdays",
      { xpath := ["cooldegdays"], vtype := "float", units := "°C",
        english := "Cooling Degree Days", french := "Degré-jour de réfrigération" }),
    ("totalrain",
      { xpath := ["totalrain"], vtype := "float", units := "mm",
        english := "Total Rain", french := "Pluie totale" }),
    ("totalsnow",
      { xpath := ["totalsnow"], vtype := "float", units := "cm",
        english := "Total Snow", french := "Neige totale" }),
    ("totalprecipitation",
      { xpath := ["totalprecipitation"], vtype := "float", units := "mm",
        english := "Total Precipitation", french := "Précipitations totales" }),
    ("snowonground",
      { xpath := ["snowonground"], vtype := "float", units := "cm",
        english := "Snow on Ground", french := "Neige au sol" }),
    ("dirofmaxgust",
      { xpath := ["dirofmaxgust"], vtype := "int", units := "10s Deg",
        english := "Direction of Maximum Gust",
        french := "Direction de la rafale maximale" }),
    ("speedofmaxgust",
      { xpath := ["speedofmaxgust"], vtype := "int", units := "km/h",
        english := "Speed of Maximum Gust",
        french := "Vitesse de la rafale maximale" }) ]

/-- The fixed `metadata_meta` registry: the 9 metadata fields and their
lookup paths. -/
def metadata_meta : List (String × List String) :=
  [ ("name", ["stationinformation", "name"]),
    ("province", ["stationinformation", "province"]),
    ("stationoperator", ["stationinformation", "stationoperator"]),
    ("latitude", ["stationinformation", "latitude"]),
    ("longitude", ["stationinformation", "longitude"]),
    ("elevation", ["stationinformation", "elevation"]),
    ("climate_identifier", ["stationinformation", "climate_identifier"]),
    ("wmo_identifier", ["stationinformation", "wmo_identifier"]),
    ("tc_identifier", ["stationinformation", "tc_identifier"]) ]

/-- The per-kind result of `get_stationdata`: the dict
`{"value": ..., "unit": ..., "label": ...}`, where `unit = none` models the
`unit` key being absent. -/
structure StationDatum : Type where
  value : PyVal
  unit : Option String
  label : String
  deriving DecidableEq, Repr

/-- `meta[language]` for a registry entry: the bilingual label. Only the two
schema-validated languages are modelled; any other string is a failure (the
real dict lookup would also hit the non-label keys, which no validated call
can reach). -/
def metaLabel (meta : FieldMeta) (language : String) : Except PyErr String :=
  if language = "english" then Except.ok meta.english
  else if language = "french" then Except.ok meta.french
  else Except.error PyErr.keyError

/-- Line 299-306: `int(...)` / `float(text.replace(",", "."))` / raw text,
following the declared type. -/
def coerceText (meta : FieldMeta) (t : String) : Except PyErr PyVal :=
  if meta.vtype = "int" then
    match pyInt? t with
    | some n => Except.ok (PyVal.int n)
    | Option.none => Except.error PyErr.valueError
  else if meta.vtype = "float" then
    match pyFloat? (replaceComma t) with
    | some q => Except.ok (PyVal.float q)
    | Option.none => Except.error PyErr.valueError
  else
    Except.ok (PyVal.str t)

/-- Lines 308-309: the `unit` key is written only when
`element.attrib.get("units")` is truthy (present and non-empty). -/
def unitAttr (e : XmlElem) : Option String :=
  match attribGet e "units" with
  | some s => if s = "" then Option.none else some s
  | Option.none => Option.none

/-- `get_stationdata`, absent-element / empty-text branch
(lines 293-294 plus the label of line 310). -/
def gsMissing (meta : FieldMeta) (language : String) : Except PyErr StationDatum := do
  let l ← metaLabel meta language
  Except.ok { value := PyVal.none, unit := Option.none, label := l }

/-- `get_stationdata`, `attribute`-override branch (lines 296-297 plus the
label): the raw attribute string (or `None` when absent), never a unit. -/
def gsAttr (meta : FieldMeta) (e : XmlElem) (a : String) (language : String) :
    Except PyErr StationDatum := do
  let l ← metaLabel meta language
  Except.ok { value := (attribGet e a).elim PyVal.none PyVal.str,
              unit := Option.none, label := l }

/-- `get_stationdata`, type-coercion branch (lines 299-309 plus the label). -/
def gsCoerce (meta : FieldMeta) (e : XmlElem) (t : String) (language : String) :
    Except PyErr StationDatum := do
  let v ← coerceText meta t
  let l ← metaLabel meta language
  Except.ok { value := v, unit := unitAttr e, label := l }

/-- `get_stationdata` on a present element with text `t`: dispatch on the
truthiness of `meta.get("attribute")` (line 296). -/
def gsText (meta : FieldMeta) (e : XmlElem) (t : String) (language : String) :
    Except PyErr StationDatum :=
  match meta.attrOverride with
  | some a => if a = "" then gsCoerce meta e t language else gsAttr meta e a language
  | Option.none => gsCoerce meta e t language

/-- `get_stationdata` on a found element: dispatch on its text (line 293). -/
def gsElem (meta : FieldMeta) (e : XmlElem) (language : String) :
    Except PyErr StationDatum :=
  match e.text with
  | Option.none => gsMissing meta language
  | some t => gsText meta e t language

/-- `get_stationdata(meta, stationdata_element, language)` (lines 288-311):
extract one measurement kind from a day-element. -/
def get_stationdata (meta : FieldMeta) (el : XmlElem) (language : String) :
    Except PyErr StationDatum :=
  match findPath el meta.xpath with
  | Option.none => gsMissing meta language
  | some e => gsElem meta e language

/-- Gregorian leap year, as Python's `datetime.date` uses. -/
def isLeap (y : Nat) : Bool :=
  (y % 4 = 0 && y % 100 ≠ 0) || y % 400 = 0

/-- Days in a month of the proleptic Gregorian calendar. -/
def daysInMonth (y m : Nat) : Nat :=
  if m = 2 then (if isLeap y then 29 else 28)
  else if m = 4 ∨ m = 6 ∨ m = 9 ∨ m = 11 then 30
  else 31

/-- Zero-pad the decimal numeral of `n` to width `w`. -/
def padNum (w n : Nat) : String :=
  let s := toString n
  String.mk (List.replicate (w - s.length) '0') ++ s

/-- `str(datetime.date(y, m, d))`: the ISO date string `YYYY-MM-DD`. -/
def isoDateStr (y m d : Nat) : String :=
  padNum 4 y ++ "-" ++ padNum 2 m ++ "-" ++ padNum 2 d

/-- Model of `parse_timestamp(f"{year}-{month}-{day}")` (lines 115-116 and
316-319): `dateutil.parser.parse` applied to the dash-joined attribute
strings, then `.date()`. For a triple of plain digit strings with an
unambiguous leading year (value ≥ 100) and a valid month/day,
`dateutil` yields exactly that Y-M-D date. All other inputs — a missing
attribute (the f-string renders `None`), non-digit components, two-digit
years (dateutil's 50-year-windowing), month/day out of range (dateutil
reordering or a raise) — engage heuristics of the external library that are
outside this model and are modelled as a parse failure. -/
def parse_ymd (year month day : Option String) : Except PyErr (Nat × Nat × Nat) :=
  match year, month, day with
  | some ys, some ms, some ds =>
    match strToNat? ys, strToNat? ms, strToNat? ds with
    | some y, some m, some d =>
      if 100 ≤ y ∧ 1 ≤ m ∧ m ≤ 12 ∧ 1 ≤ d ∧ d ≤ daysInMonth y m then
        Except.ok (y, m, d)
      else Except.error PyErr.parseError
    | _, _, _ => Except.error PyErr.parseError
  | _, _, _ => Except.error PyErr.parseError

/-- Lines 316-319 plus `str(dt)`: the date key of one `stationdata`
day-element. -/
def dayKey (el : XmlElem) : Except PyErr String :=
  (parse_ymd (attribGet el "year") (attribGet el "month")
      (attribGet el "day")).map (fun ymd => isoDateStr ymd.1 ymd.2.1 ymd.2.2)

/-- One day's record: measurement kind → extracted datum. -/
abbrev DailyRecord : Type := List (String × StationDatum)

/-- The loop of lines 321-326 over a registry tail: accumulate
`get_stationdata` results into the day's dict. -/
def buildAux (ms : List (String × FieldMeta)) (el : XmlElem) (language : String)
    (acc : DailyRecord) : Except PyErr DailyRecord :=
  match ms with
  | [] => Except.ok acc
  | (s, meta) :: rest => do
    let d ← get_stationdata meta el language
    buildAux rest el language (dictInsert acc s d)

/-- Lines 321-326: build `cur_station_data` for one day-element. -/
def build_station_data (el : XmlElem) (language : String) :
    Except PyErr DailyRecord :=
  buildAux stationdata_meta el language []

/-- Lines 280-285: the 9 metadata values read from the document (the value
stored for each field is the found element's text, or `None`). -/
def xmlMetadataVals (tree : XmlElem) : List (String × Option String) :=
  metadata_meta.map (fun p => (p.1, (findPath tree p.2).bind (fun e => e.text)))

/-- Lines 313-328: the `(date key, day record)` pairs of the document, in
document order. -/
def xmlEntries (tree : XmlElem) (language : String) :
    Except PyErr (List (String × DailyRecord)) :=
  (findAllChildren tree "stationdata").foldlM
    (fun acc el => do
      let k ← dayKey el
      let r ← build_station_data el language
      Except.ok (acc ++ [(k, r)]))
    []

/-- The `station_data` field: a date-keyed dict in XML mode, the raw
response text (the `StringIO` deep copy) in CSV mode. -/
inductive StationDataVal : Type where
  | table (d : List (String × DailyRecord))
  | raw (s : String)
  deriving DecidableEq

/-- The state an `ECHistorical` instance holds after `__init__`
(lines 221-229). -/
structure ECState : Type where
  station_id : Int
  year : Int
  language : String
  format : String
  timeframe : Int
  submit : String
  metadata : List (String × Option String)
  station_data : StationDataVal
  deriving DecidableEq

/-- A keyword-argument value handed to the constructor (`bool`, which
Python treats as an `int` subtype, is not modelled). -/
inductive PyArg : Type where
  | int (n : Int)
  | str (s : String)
  | float (q : Rat)
  | noneV
  deriving DecidableEq, Repr

/-- The constructor's keyword arguments; `Option.none` models an omitted
key. -/
structure InitKwargs : Type where
  station_id : Option PyArg
  year : Option PyArg
  language : Option PyArg
  format : Option PyArg
  deriving DecidableEq, Repr

/-- `vol.Required("station_id"): int`. -/
def vStationId (v : Option PyArg) : Except PyErr Int :=
  match v with
  | some (PyArg.int n) => Except.ok n
  | _ => Except.error PyErr.validationError

/-- `vol.Required("year"): vol.All(int, vol.Range(1840, current year))`
(both bounds inclusive). -/
def vYear (v : Option PyArg) (currentYear : Int) : Except PyErr Int :=
  match v with
  | some (PyArg.int n) =>
    if 1840 ≤ n ∧ n ≤ currentYear then Except.ok n
    else Except.error PyErr.validationError
  | _ => Except.error PyErr.validationError

/-- `vol.Required("language", default="english"): vol.In(["english", "french"])`. -/
def vLanguage (v : Option PyArg) : Except PyErr String :=
  match v with
  | Option.none => Except.ok "english"
  | some (PyArg.str s) =>
    if s = "english" ∨ s = "french" then Except.ok s
    else Except.error PyErr.validationError
  | some _ => Except.error PyErr.validationError

/-- `vol.Required("format", default="xml"): vol.In(["xml", "csv"])`. -/
def vFormat (v : Option PyArg) : Except PyErr String :=
  match v with
  | Option.none => Except.ok "xml"
  | some (PyArg.str s) =>
    if s = "xml" ∨ s = "csv" then Except.ok s
    else Except.error PyErr.validationError
  | some _ => Except.error PyErr.validationError

/-- `ECHistorical.__init__` (lines 203-229): schema validation then field
assignment. It performs no network access — `update` is a separate
operation — so a validation failure leaves no instance state behind. -/
def ECHistorical_init (k : InitKwargs) (currentYear : Int) :
    Except PyErr ECState := do
  let sid ← vStationId k.station_id
  let y ← vYear k.year currentYear
  let lang ← vLanguage k.language
  let fmt ← vFormat k.format
  Except.ok
    { station_id := sid, year := y, language := lang, format := fmt,
      timeframe := 2, submit := "Download+Data",
      metadata := [], station_data := StationDataVal.table [] }

/-- The XML branch of `update` (lines 273-328), taking the already-parsed
document tree: assign each of the 9 metadata keys, then insert each
day-element's record under its date key (note: into the existing
`station_data` dict, which is not cleared first). -/
def updateXML (s : ECState) (tree : XmlElem) : Except PyErr ECState := do
  let entries ← xmlEntries tree s.language
  match s.station_data with
  | StationDataVal.raw _ => Except.error PyErr.typeError
  | StationDataVal.table d0 =>
    Except.ok
      { s with
        metadata :=
          (xmlMetadataVals tree).foldl (fun d p => dictInsert d p.1 p.2)
            s.metadata,
        station_data :=
          StationDataVal.table
            (entries.foldl (fun d p => dictInsert d p.1 p.2) d0) }

/-- Model of iterating `csv.reader` over the response body, restricted to
bodies without quoted fields: split into lines (newline-terminated final
line allowed; a blank line is an empty row), split each line on commas. -/
def csvRows (s : String) : List (List String) :=
  (let ls := (splitOnChar ('\n') s.data).map String.mk
   if ls.getLast? = some "" then ls.dropLast else ls).map
    (fun line => if line = "" then []
     else (splitOnChar (',') line.data).map String.mk)

/-- The CSV branch of `update` (lines 251-271): keep the raw body as
`station_data`, skip the header row, and rebuild `metadata` wholesale from
columns 0-3 of the first data row. -/
def updateCSV (s : ECState) (body : String) : Except PyErr ECState :=
  match csvRows body with
  | _hdr :: firstrow :: _ =>
    match firstrow.get? 0, firstrow.get? 1, firstrow.get? 2, firstrow.get? 3 with
    | some a, some b, some c, some d =>
      Except.ok
        { s with
          station_data := StationDataVal.raw body,
          metadata :=
            [("longitude", some a), ("latitude", some b), ("name", some c),
             ("climate_identifier", some d)] }
    | _, _, _, _ => Except.error PyErr.indexError
  | _ => Except.error PyErr.stopIteration

/-- One station-search result form, as extracted by lxml: the form's `id`
attribute (missing modelled as `""`, which the prefix test rejects anyway),
the texts of its `div[@class="col-md-10 col-sm-8 col-xs-8"]` descendants in
document order, and its `input` descendants as name → optional `value`
attribute. -/
structure HtmlForm : Type where
  id : String
  divTexts : List (Option String)
  inputs : List (String × Option String)
  deriving DecidableEq, Repr

/-- The form-selection XPath of lines 164-166: `@id` starts with
`stnRequest` and ends with `-sm`. -/
def matchesStnForm (f : HtmlForm) : Bool :=
  ("stnRequest".data.isPrefixOf f.id.data) && ("-sm".data.isSuffixOf f.id.data)

/-- One extracted `StationCandidate` (lines 170-193). -/
structure Station : Type where
  prov : Option String
  proximity : Rat
  id : Option String
  hlyRange : Option String
  dlyRange : Option String
  mlyRange : Option String
  deriving DecidableEq, Repr

/-- `form.find("input[@name='...']")`: first input with that name
(`some v` is its `value` attribute lookup result). -/
def findInput (f : HtmlForm) (nm : String) : Option (Option String) :=
  ((f.inputs.find? (fun kv => kv.1 = nm))).map (fun kv => kv.2)

/-- Extraction of one matching form (lines 170-194): three positional div
texts (an out-of-range index raises IndexError; `float(None)` raises
TypeError; an unparsable proximity raises ValueError) and four hidden
inputs by name (a missing input raises AttributeError via `.attrib` on
`None`). Returns the station-name key and the candidate record. -/
def parseStationForm (f : HtmlForm) : Except PyErr (Option String × Station) := do
  let nameT ←
    match f.divTexts.get? 0 with
    | some t => Except.ok t
    | Option.none => Except.error PyErr.indexError
  let provT ←
    match f.divTexts.get? 1 with
    | some t => Except.ok t
    | Option.none => Except.error PyErr.indexError
  let proxT ←
    match f.divTexts.get? 2 with
    | some t => Except.ok t
    | Option.none => Except.error PyErr.indexError
  let proxS ←
    match proxT with
    | some s => Except.ok s
    | Option.none => Except.error PyErr.typeError
  let prox ←
    match pyFloat? proxS with
    | some q => Except.ok q
    | Option.none => Except.error PyErr.valueError
  let sid ←
    match findInput f "StationID" with
    | some v => Except.ok v
    | Option.none => Except.error PyErr.attributeError
  let hly ←
    match findInput f "hlyRange" with
    | some v => Except.ok v
    | Option.none => Except.error PyErr.attributeError
  let dly ←
    match findInput f "dlyRange" with
    | some v => Except.ok v
    | Option.none => Except.error PyErr.attributeError
  let mly ←
    match findInput f "mlyRange" with
    | some v => Except.ok v
    | Option.none => Except.error PyErr.attributeError
  Except.ok (nameT,
    { prov := provT, proximity := prox, id := sid,
      hlyRange := hly, dlyRange := dly, mlyRange := mly })

/-- The parsing core of `get_historical_stations` (lines 162-196), taking
the parsed document's form elements: select the matching forms and fold
their extracted candidates into the `stations` dict (keyed by station name;
last write wins). -/
def get_historical_stations_parse (forms : List HtmlForm) :
    Except PyErr (List (Option String × Station)) :=
  (forms.filter matchesStnForm).foldlM
    (fun acc f => do
      let (n, st) ← parseStationForm f
      Except.ok (dictInsert acc n st))
    []

/-! ## Concrete documents and inputs used to check the claims -/

/-- The day record every kind of which is missing from the source
(English labels). -/
def allNullEnglish : DailyRecord :=
  stationdata_meta.map
    (fun p => (p.1, { value := PyVal.none, unit := Option.none,
                      label := p.2.english }))

def c1k : InitKwargs :=
  { station_id := some (PyArg.int 50), year := some (PyArg.int 2000),
    language := some (PyArg.str "english"), format := some (PyArg.str "xml") }

/-- An XML response whose single day-element is 2000-01-01. -/
def c1r1 : XmlElem :=
  XmlElem.mk "climatedata" [] Option.none
    [XmlElem.mk "stationdata" [("day", "1"), ("month", "1"), ("year", "2000")]
        Option.none []]

/-- An XML response with no day-elements. -/
def c1r2 : XmlElem := XmlElem.mk "climatedata" [] Option.none []

def c1kcsv : InitKwargs :=
  { station_id := some (PyArg.int 50), year := some (PyArg.int 2000),
    language := some (PyArg.str "english"), format := some (PyArg.str "csv") }

/-- The instance state `__init__` establishes for `c1kcsv`. -/
def c1s0csv : ECState :=
  { station_id := 50, year := 2000, language := "english", format := "csv",
    timeframe := 2, submit := "Download+Data", metadata := [],
    station_data := StationDataVal.table [] }

def c1b1 : String := "h1,h2,h3,h4
1,2,TOR,99"

def c1b2 : String := "h1,h2,h3,h4
3,4,MTL,88"

def c1t1 : ECState :=
  { c1s0csv with
    station_data := StationDataVal.raw c1b1,
    metadata := [("longitude", some "1"), ("latitude", some "2"),
                 ("name", some "TOR"), ("climate_identifier", some "99")] }

def c1t2 : ECState :=
  { c1s0csv with
    station_data := StationDataVal.raw c1b2,
    metadata := [("longitude", some "3"), ("latitude", some "4"),
                 ("name", some "MTL"), ("climate_identifier", some "88")] }

/-- A day-element with no measurement children at all. -/
def c2el : XmlElem := XmlElem.mk "stationdata" [] Option.none []

/-- A station-search form matching the id selection but lacking the three
expected inner `div` texts. -/
def c3form : HtmlForm := { id := "stnRequest1-sm", divTexts := [], inputs := [] }

/-- A form whose id fails the `-sm` suffix test. -/
def c3formNoMatch : HtmlForm := { id := "stnRequest1", divTexts := [], inputs := [] }

def c4meta : FieldMeta :=
  { xpath := ["maxtemp"], vtype := "float", units := "°C",
    english := "Maximum Temperature", french := "Température maximale" }

def c5el : XmlElem :=
  XmlElem.mk "stationdata" [("day", "5"), ("month", "3"), ("year", "2020")]
    Option.none []

def c6meta : FieldMeta :=
  { xpath := ["totalrain"], vtype := "float", units := "mm",
    english := "Total Rain", french := "Pluie totale" }

def c6child : XmlElem := XmlElem.mk "totalrain" [] (some "1,5") []

def c6el : XmlElem := XmlElem.mk "stationdata" [] Option.none [c6child]

def c7meta : FieldMeta :=
  { xpath := ["dirofmaxgust"], vtype := "int", units := "10s Deg",
    english := "Direction of Maximum Gust",
    french := "Direction de la rafale maximale" }

/-- A measurement element that carries an (empty) `units` attribute. -/
def c7e : XmlElem := XmlElem.mk "dirofmaxgust" [("units", "")] (some "5") []

def c7el : XmlElem := XmlElem.mk "stationdata" [] Option.none [c7e]

/-- A measurement element with a non-empty `units` attribute. -/
def c7e2 : XmlElem := XmlElem.mk "dirofmaxgust" [("units", "deg")] (some "5") []

def c7el2 : XmlElem := XmlElem.mk "stationdata" [] Option.none [c7e2]

def c8k : InitKwargs :=
  { station_id := some (PyArg.int 50), year := some (PyArg.int 1700),
    language := Option.none, format := Option.none }

def c9s : ECState :=
  { station_id := 50, year := 2000, language := "english", format := "csv",
    timeframe := 2, submit := "Download+Data", metadata := [],
    station_data := StationDataVal.table [] }

def c9body : String := "h1,h2,h3,h4,h5
-75.1,45.2,TORONTO,6158355,9.9"

/-- A registry entry exercising the `attribute`-override mechanism (none of
the shipped entries carry it). -/
def c10meta : FieldMeta :=
  { xpath := ["gust"], vtype := "int", units := "km/h",
    english := "Gust", french := "Rafale", attrOverride := some "dir" }

/-- The element carries both the override attribute and a `units`
attribute. -/
def c10e : XmlElem :=
  XmlElem.mk "gust" [("dir", "north"), ("units", "mm")] (some "77") []

def c10el : XmlElem := XmlElem.mk "stationdata" [] Option.none [c10e]

/-- Lookup in the `station_data` field (a date-keyed dict in XML mode;
the raw-text payload of CSV mode holds no keys). -/
def sdGet (sd : StationDataVal) (k : String) : Option DailyRecord :=
  match sd with
  | StationDataVal.table d => dictGet d k
  | StationDataVal.raw _ => Option.none

/-- First-defined choice on options (used to state lookup overwrites). -/
def optFirst {V : Type} (a b : Option V) : Option V :=
  match a with
  | some x => some x
  | Option.none => b

/-- The last binding for `k` in an entry list (what repeated dict
assignment leaves behind). -/
def lookupLast {κ V : Type} [DecidableEq κ] : List (κ × V) → κ → Option V
  | [], _ => Option.none
  | kv :: rest, k =>
    optFirst (lookupLast rest k) (if kv.1 = k then some kv.2 else Option.none)

/-! ## General lemmas about the dictionary model and `Except` -/

theorem exceptBind_ok {ε α β : Type} {x : Except ε α} {f : α → Except ε β} {b : β}
    (h : (x >>= f) = Except.ok b) : ∃ a, x = Except.ok a ∧ f a = Except.ok b := by
  cases x with
  | ok a => exact ⟨a, rfl, h⟩
  | error e => exact absurd h (by simp [Bind.bind, Except.bind])

theorem optFirst_none {V : Type} (b : Option V) : optFirst Option.none b = b := rfl

theorem optFirst_some {V : Type} (x : V) (b : Option V) :
    optFirst (some x) b = some x := rfl

theorem dictGet_insert {κ V : Type} [DecidableEq κ] (d : List (κ × V)) (k k2 : κ)
    (v : V) :
    dictGet (dictInsert d k v) k2 = if k2 = k then some v else dictGet d k2 := by
  induction d with
  | nil =>
    by_cases h : k2 = k
    · subst h; simp [dictInsert, dictGet]
    · have h' : ¬k = k2 := fun hh => h hh.symm
      simp [dictInsert, dictGet, h, h']
  | cons kv rest ih =>
    by_cases hk : kv.1 = k
    · by_cases h2 : k2 = k
      · subst h2; simp [dictInsert, dictGet, hk]
      · have h2' : ¬k = k2 := fun hh => h2 hh.symm
        have h3 : ¬kv.1 = k2 := fun hh => h2' (hk.symm.trans hh)
        simp [dictInsert, dictGet, hk, h2, h2', h3]
    · by_cases h3 : kv.1 = k2
      · have h2 : ¬k2 = k := fun hh => hk (h3.trans hh)
        simp [dictInsert, dictGet, hk, h3, h2]
      · by_cases h2 : k2 = k
        · subst h2
          simp [dictInsert, dictGet, hk, h3, ih]
        · simp [dictInsert, dictGet, hk, h3, h2, ih]

theorem optFirst_assoc {V : Type} (a b c : Option V) :
    optFirst (optFirst a b) c = optFirst a (optFirst b c) := by
  cases a <;> cases b <;> rfl

/-- Folding dict assignments of `entries` over `d`: a key is looked up
first in the (later-wins) entries, then in `d`. -/
theorem dictGet_foldl_insert {κ V : Type} [DecidableEq κ]
    (entries : List (κ × V)) (d : List (κ × V)) (k : κ) :
    dictGet (entries.foldl (fun d p => dictInsert d p.1 p.2) d) k =
      optFirst (lookupLast entries k) (dictGet d k) := by
  induction entries generalizing d with
  | nil => rfl
  | cons p entries ih =>
    rw [List.foldl_cons, ih, lookupLast, optFirst_assoc]
    congr 1
    rw [dictGet_insert]
    by_cases h : k = p.1
    · simp [h, optFirst]
    · rw [if_neg h, if_neg (fun hh : p.1 = k => h hh.symm), optFirst_none]

theorem optFirst_eq_none {V : Type} {a b : Option V}
    (h : optFirst a b = Option.none) : a = Option.none ∧ b = Option.none := by
  cases a with
  | none => exact ⟨rfl, h⟩
  | some x => exact absurd h (by simp [optFirst])

/-- Two entry lists built over the same key skeleton miss the same keys. -/
theorem lookupLast_map_none {κ α β γ : Type} [DecidableEq κ]
    (l : List (κ × α)) (f : κ × α → β) (g : κ × α → γ) (k : κ)
    (h : lookupLast (l.map (fun p => (p.1, f p))) k = Option.none) :
    lookupLast (l.map (fun p => (p.1, g p))) k = Option.none := by
  induction l with
  | nil => rfl
  | cons p l ih =>
    rw [List.map_cons, lookupLast] at h ⊢
    obtain ⟨h1, h2⟩ := optFirst_eq_none h
    rw [ih h1, optFirst_none] at *
    by_cases hp : p.1 = k
    · rw [if_pos hp] at h2
      exact absurd h2 (by simp)
    · rw [if_neg hp]

/-! ## Inversion lemmas for the embedded operations -/

theorem metaLabel_ok {meta : FieldMeta} {language l : String}
    (h : metaLabel meta language = Except.ok l) :
    language = "english" ∨ language = "french" := by
  unfold metaLabel at h
  by_cases h1 : language = "english"
  · exact Or.inl h1
  · by_cases h2 : language = "french"
    · exact Or.inr h2
    · rw [if_neg h1, if_neg h2] at h
      exact absurd h (by simp)

theorem metaLabel_eval (meta : FieldMeta) (language : String)
    (hlang : language = "english" ∨ language = "french") :
    metaLabel meta language =
      Except.ok (if language = "english" then meta.english else meta.french) := by
  rcases hlang with h | h <;> subst h <;> simp [metaLabel]

theorem get_stationdata_eq_missing {meta : FieldMeta} {el : XmlElem}
    (language : String) (h : findPath el meta.xpath = Option.none) :
    get_stationdata meta el language = gsMissing meta language := by
  unfold get_stationdata
  rw [h]

theorem get_stationdata_eq_elem {meta : FieldMeta} {el e : XmlElem}
    (language : String) (h : findPath el meta.xpath = some e) :
    get_stationdata meta el language = gsElem meta e language := by
  unfold get_stationdata
  rw [h]

theorem gsElem_eq_missing {meta : FieldMeta} {e : XmlElem} (language : String)
    (h : e.text = Option.none) :
    gsElem meta e language = gsMissing meta language := by
  unfold gsElem
  rw [h]

theorem gsElem_eq_text {meta : FieldMeta} {e : XmlElem} {t : String}
    (language : String) (h : e.text = some t) :
    gsElem meta e language = gsText meta e t language := by
  unfold gsElem
  rw [h]

theorem gsText_eq_coerce {meta : FieldMeta} (e : XmlElem) (t language : String)
    (h : meta.attrOverride = Option.none) :
    gsText meta e t language = gsCoerce meta e t language := by
  unfold gsText
  rw [h]

theorem gsText_eq_attr {meta : FieldMeta} {a : String} (e : XmlElem)
    (t language : String) (h : meta.attrOverride = some a) (hne : a ≠ "") :
    gsText meta e t language = gsAttr meta e a language := by
  unfold gsText
  rw [h]
  exact if_neg hne

theorem gsMissing_eval (meta : FieldMeta) (language : String)
    (hlang : language = "english" ∨ language = "french") :
    gsMissing meta language =
      Except.ok { value := PyVal.none, unit := Option.none,
                  label := if language = "english" then meta.english
                           else meta.french } := by
  unfold gsMissing
  rw [metaLabel_eval meta language hlang]
  rfl

theorem gsAttr_eval (meta : FieldMeta) (e : XmlElem) (a language : String)
    (hlang : language = "english" ∨ language = "french") :
    gsAttr meta e a language =
      Except.ok { value := (attribGet e a).elim PyVal.none PyVal.str,
                  unit := Option.none,
                  label := if language = "english" then meta.english
                           else meta.french } := by
  unfold gsAttr
  rw [metaLabel_eval meta language hlang]
  rfl

theorem gsCoerce_eval {meta : FieldMeta} {t : String} {v : PyVal} (e : XmlElem)
    (language : String) (hcv : coerceText meta t = Except.ok v)
    (hlang : language = "english" ∨ language = "french") :
    gsCoerce meta e t language =
      Except.ok { value := v, unit := unitAttr e,
                  label := if language = "english" then meta.english
                           else meta.french } := by
  unfold gsCoerce
  rw [hcv, metaLabel_eval meta language hlang]
  rfl

/-- Shared helper: an absent element, or one with no text, extracts to
`{value: None, label}` with no unit key and no exception. -/
theorem get_stationdata_missing (meta : FieldMeta) (el : XmlElem) (language : String)
    (hlang : language = "english" ∨ language = "french")
    (hmiss : findPath el meta.xpath = Option.none ∨
      ∃ e, findPath el meta.xpath = some e ∧ e.text = Option.none) :
    get_stationdata meta el language =
      Except.ok { value := PyVal.none, unit := Option.none,
                  label := if language = "english" then meta.english
                           else meta.french } := by
  rcases hmiss with h | ⟨e, he, ht⟩
  · rw [get_stationdata_eq_missing language h]
    exact gsMissing_eval meta language hlang
  · rw [get_stationdata_eq_elem language he, gsElem_eq_missing language ht]
    exact gsMissing_eval meta language hlang

theorem gsMissing_ok_lang {meta : FieldMeta} {language : String} {d : StationDatum}
    (h : gsMissing meta language = Except.ok d) :
    language = "english" ∨ language = "french" := by
  unfold gsMissing at h
  obtain ⟨l, hl, -⟩ := exceptBind_ok h
  exact metaLabel_ok hl

theorem gsCoerce_ok_lang {meta : FieldMeta} {e : XmlElem} {t language : String}
    {d : StationDatum} (h : gsCoerce meta e t language = Except.ok d) :
    language = "english" ∨ language = "french" := by
  unfold gsCoerce at h
  obtain ⟨v, -, h2⟩ := exceptBind_ok h
  obtain ⟨l, hl, -⟩ := exceptBind_ok h2
  exact metaLabel_ok hl

theorem get_stationdata_ok_lang {meta : FieldMeta} {el : XmlElem}
    {language : String} {d : StationDatum}
    (h : get_stationdata meta el language = Except.ok d) :
    language = "english" ∨ language = "french" := by
  cases hf : findPath el meta.xpath with
  | none =>
    rw [get_stationdata_eq_missing language hf] at h
    exact gsMissing_ok_lang h
  | some e =>
    rw [get_stationdata_eq_elem language hf] at h
    cases ht : e.text with
    | none =>
      rw [gsElem_eq_missing language ht] at h
      exact gsMissing_ok_lang h
    | some t =>
      rw [gsElem_eq_text language ht] at h
      cases ha : meta.attrOverride with
      | none =>
        rw [gsText_eq_coerce e t language ha] at h
        exact gsCoerce_ok_lang h
      | some a =>
        by_cases hae : a = ""
        · subst hae
          unfold gsText at h
          rw [ha] at h
          simp only [reduceIte] at h
          exact gsCoerce_ok_lang h
        · rw [gsText_eq_attr e t language ha hae] at h
          unfold gsAttr at h
          obtain ⟨l, hl, -⟩ := exceptBind_ok h
          exact metaLabel_ok hl

theorem coerceText_int {meta : FieldMeta} {t : String} {n : Int}
    (hv : meta.vtype = "int") (hp : pyInt? t = some n) :
    coerceText meta t = Except.ok (PyVal.int n) := by
  unfold coerceText
  rw [hv, hp]
  rfl

theorem coerceText_float {meta : FieldMeta} {t : String} {q : Rat}
    (hv : meta.vtype = "float") (hp : pyFloat? (replaceComma t) = some q) :
    coerceText meta t = Except.ok (PyVal.float q) := by
  unfold coerceText
  rw [hv, hp]
  rfl

theorem dictInsert_append {κ V : Type} [DecidableEq κ] (d : List (κ × V)) (k : κ)
    (v : V) (h : ∀ kv ∈ d, kv.1 ≠ k) : dictInsert d k v = d ++ [(k, v)] := by
  induction d with
  | nil => rfl
  | cons kv rest ih =>
    rw [dictInsert, if_neg (h kv (List.mem_cons_self kv rest)),
      ih (fun x hx => h x (List.mem_cons_of_mem _ hx))]
    rfl

theorem buildAux_keys {el : XmlElem} {language : String} :
    ∀ (ms : List (String × FieldMeta)) (acc r : DailyRecord),
      (ms.map Prod.fst).Nodup →
      (∀ p ∈ ms, ∀ kv ∈ acc, kv.1 ≠ p.1) →
      buildAux ms el language acc = Except.ok r →
      r.map Prod.fst = acc.map Prod.fst ++ ms.map Prod.fst := by
  intro ms
  induction ms with
  | nil =>
    intro acc r _ _ hb
    cases hb
    simp
  | cons p rest ih =>
    intro acc r hnd hdisj hb
    obtain ⟨s, meta⟩ := p
    rw [buildAux] at hb
    obtain ⟨d, _, h2⟩ := exceptBind_ok hb
    have hins : dictInsert acc s d = acc ++ [(s, d)] :=
      dictInsert_append _ _ _
        (fun kv hkv => hdisj (s, meta) (List.mem_cons_self _ _) kv hkv)
    rw [hins] at h2
    rw [List.map_cons] at hnd
    have hs_not : s ∉ rest.map Prod.fst := (List.nodup_cons.mp hnd).1
    have hih := ih (acc ++ [(s, d)]) r (List.nodup_cons.mp hnd).2
      (fun q hq kv hkv => by
        rcases List.mem_append.mp hkv with hkv | hkv
        · exact hdisj q (List.mem_cons_of_mem _ hq) kv hkv
        · rw [List.mem_singleton.mp hkv]
          intro hEq
          apply hs_not
          rw [show s = q.1 from hEq]
          exact List.mem_map_of_mem Prod.fst hq)
      h2
    rw [hih]
    simp

theorem buildAux_get_stable {el : XmlElem} {language : String} :
    ∀ (ms : List (String × FieldMeta)) (acc r : DailyRecord) (s : String),
      (∀ p ∈ ms, p.1 ≠ s) →
      buildAux ms el language acc = Except.ok r →
      dictGet r s = dictGet acc s := by
  intro ms
  induction ms with
  | nil =>
    intro acc r s _ hb
    cases hb
    rfl
  | cons p rest ih =>
    intro acc r s hne hb
    obtain ⟨s0, meta⟩ := p
    rw [buildAux] at hb
    obtain ⟨d, _, h2⟩ := exceptBind_ok hb
    rw [ih (dictInsert acc s0 d) r s
        (fun q hq => hne q (List.mem_cons_of_mem _ hq)) h2]
    rw [dictGet_insert]
    rw [if_neg (fun hEq : s = s0 =>
      hne (s0, meta) (List.mem_cons_self _ _) hEq.symm)]

theorem buildAux_mem {el : XmlElem} {language : String} :
    ∀ (ms : List (String × FieldMeta)) (acc r : DailyRecord),
      (ms.map Prod.fst).Nodup →
      buildAux ms el language acc = Except.ok r →
      ∀ s meta, (s, meta) ∈ ms →
        ∃ d, get_stationdata meta el language = Except.ok d ∧
          dictGet r s = some d := by
  intro ms
  induction ms with
  | nil =>
    intro acc r _ _ s meta hmem
    exact absurd hmem (List.not_mem_nil _)
  | cons p rest ih =>
    intro acc r hnd hb s meta hmem
    obtain ⟨s0, meta0⟩ := p
    rw [buildAux] at hb
    obtain ⟨d0, hd0, h2⟩ := exceptBind_ok hb
    rw [List.map_cons] at hnd
    rcases List.mem_cons.mp hmem with hEq | hmem
    · injection hEq with hEq1 hEq2
      subst hEq1
      subst hEq2
      refine ⟨d0, hd0, ?_⟩
      have hstable := buildAux_get_stable rest (dictInsert acc s d0) r s
        (fun q hq hq1 =>
          absurd (show s ∈ rest.map Prod.fst by
              rw [← hq1]
              exact List.mem_map_of_mem Prod.fst hq)
            (List.nodup_cons.mp hnd).1)
        h2
      rw [hstable, dictGet_insert, if_pos rfl]
    · exact ih (dictInsert acc s0 d0) r (List.nodup_cons.mp hnd).2 h2 s meta hmem

theorem exceptBind_errorRw {ε α β : Type} {x : Except ε α} {e : ε}
    (f : α → Except ε β) (h : x = Except.error e) :
    (x >>= f) = Except.error e := by
  rw [h]
  rfl

theorem exceptBind_okRw {ε α β : Type} {x : Except ε α} {a : α}
    (f : α → Except ε β) (h : x = Except.ok a) : (x >>= f) = f a := by
  rw [h]
  rfl

theorem updateXML_ok {s s2 : ECState} {tree : XmlElem}
    (h : updateXML s tree = Except.ok s2) :
    ∃ entries d0, xmlEntries tree s.language = Except.ok entries ∧
      s.station_data = StationDataVal.table d0 ∧
      s2 = { s with
             metadata := (xmlMetadataVals tree).foldl
               (fun d p => dictInsert d p.1 p.2) s.metadata,
             station_data := StationDataVal.table
               (entries.foldl (fun d p => dictInsert d p.1 p.2) d0) } := by
  unfold updateXML at h
  obtain ⟨entries, he, h2⟩ := exceptBind_ok h
  split at h2
  · exact absurd h2 (by simp)
  · rename_i d0 heq
    injection h2 with h3
    exact ⟨entries, d0, he, heq, h3.symm⟩

theorem updateCSV_ok_shape {s s2 : ECState} {body : String}
    (h : updateCSV s body = Except.ok s2) :
    ∃ a b c d,
      s2 = { s with
             station_data := StationDataVal.raw body,
             metadata := [("longitude", some a), ("latitude", some b),
                          ("name", some c), ("climate_identifier", some d)] } ∧
      ∀ s3 : ECState, updateCSV s3 body =
        Except.ok { s3 with
                    station_data := StationDataVal.raw body,
                    metadata := [("longitude", some a), ("latitude", some b),
                                 ("name", some c),
                                 ("climate_identifier", some d)] } := by
  unfold updateCSV at h
  split at h
  · rename_i hdr firstrow rest hrows
    split at h
    · rename_i a b c d h0 h1 h2 h3
      injection h with h4
      refine ⟨a, b, c, d, h4.symm, fun s3 => ?_⟩
      unfold updateCSV
      rw [hrows]
      simp only [h0, h1, h2, h3]
    · exact absurd h (by simp)
  · exact absurd h (by simp)

theorem vStationId_cases (v : Option PyArg) :
    (∃ n, vStationId v = Except.ok n) ∨
      vStationId v = Except.error PyErr.validationError := by
  rcases v with _ | a
  · exact Or.inr rfl
  · rcases a with n | s | q | _
    · exact Or.inl ⟨n, rfl⟩
    · exact Or.inr rfl
    · exact Or.inr rfl
    · exact Or.inr rfl

theorem vYear_cases (v : Option PyArg) (cy : Int) :
    (∃ n, vYear v cy = Except.ok n) ∨
      vYear v cy = Except.error PyErr.validationError := by
  rcases v with _ | a
  · exact Or.inr rfl
  · rcases a with n | s | q | _
    · by_cases h : 1840 ≤ n ∧ n ≤ cy
      · exact Or.inl ⟨n, by simp only [vYear]; rw [if_pos h]⟩
      · exact Or.inr (by simp only [vYear]; rw [if_neg h])
    · exact Or.inr rfl
    · exact Or.inr rfl
    · exact Or.inr rfl

theorem vLanguage_cases (v : Option PyArg) :
    (∃ l, vLanguage v = Except.ok l) ∨
      vLanguage v = Except.error PyErr.validationError := by
  rcases v with _ | a
  · exact Or.inl ⟨"english", rfl⟩
  · rcases a with n | s | q | _
    · exact Or.inr rfl
    · by_cases h : s = "english" ∨ s = "french"
      · exact Or.inl ⟨s, by simp only [vLanguage]; rw [if_pos h]⟩
      · exact Or.inr (by simp only [vLanguage]; rw [if_neg h])
    · exact Or.inr rfl
    · exact Or.inr rfl

theorem init_ok {k : InitKwargs} {cy : Int} {s : ECState}
    (h : ECHistorical_init k cy = Except.ok s) :
    vStationId k.station_id = Except.ok s.station_id ∧
    vYear k.year cy = Except.ok s.year ∧
    vLanguage k.language = Except.ok s.language ∧
    vFormat k.format = Except.ok s.format ∧
    s.timeframe = 2 ∧ s.submit = "Download+Data" ∧
    s.metadata = [] ∧ s.station_data = StationDataVal.table [] := by
  unfold ECHistorical_init at h
  obtain ⟨sid, h1, h⟩ := exceptBind_ok h
  obtain ⟨y, h2, h⟩ := exceptBind_ok h
  obtain ⟨lang, h3, h⟩ := exceptBind_ok h
  obtain ⟨fmt, h4, h⟩ := exceptBind_ok h
  injection h with h5
  subst h5
  exact ⟨h1, h2, h3, h4, rfl, rfl, rfl, rfl⟩

theorem sdGet_table (d : List (String × DailyRecord)) (k : String) :
    sdGet (StationDataVal.table d) k = dictGet d k := rfl

/-! ## The claims -/

/-- C3 (amended): for every parsed station-search document in which zero
form elements match the fixed id prefix/suffix selection, the station
locator returns an empty mapping rather than raising an error. (The
original claim's generalisation to every malformed document fails: a form
that matches the id selection but lacks the expected inner elements raises,
see the counterexample.) -/
theorem claim_C3 (forms : List HtmlForm)
    (hnone : forms.filter matchesStnForm = []) :
    get_historical_stations_parse forms = Except.ok [] := by
  unfold get_historical_stations_parse
  rw [hnone]
  rfl

/-- C3 witness: a document whose only form fails the `-sm` suffix test
yields the empty mapping. -/
theorem claim_C3_witness :
    get_historical_stations_parse [c3formNoMatch] = Except.ok [] :=
  claim_C3 [c3formNoMatch] (by decide)

/-- C3 counterexample: a malformed document lacking the expected form
structure need not return an empty mapping — a form matching the id
selection whose inner `div` elements are missing raises an IndexError. -/
theorem claim_C3_counterexample :
    matchesStnForm c3form = true ∧
    get_historical_stations_parse [c3form] = Except.error PyErr.indexError := by
  constructor
  · decide
  · decide

/-- C4: for every registered measurement kind, if the corresponding child
element is absent from the day-element or has no text, the field-extraction
helper returns `{value: null, label}` with no unit key and does not raise. -/
theorem claim_C4 (s : String) (meta : FieldMeta) (el : XmlElem)
    (language : String)
    (hreg : (s, meta) ∈ stationdata_meta)
    (hlang : language = "english" ∨ language = "french")
    (hmiss : findPath el meta.xpath = Option.none ∨
      ∃ e, findPath el meta.xpath = some e ∧ e.text = Option.none) :
    get_stationdata meta el language =
      Except.ok { value := PyVal.none, unit := Option.none,
                  label := if language = "english" then meta.english
                           else meta.french } :=
  get_stationdata_missing meta el language hlang hmiss

/-- C4 witness: `maxtemp` missing from an empty day-element extracts to a
null value with its English label and no unit key. -/
theorem claim_C4_witness :
    get_stationdata c4meta c2el "english" =
      Except.ok { value := PyVal.none, unit := Option.none,
                  label := "Maximum Temperature" } := by
  have h := claim_C4 "maxtemp" c4meta c2el "english" (by decide) (Or.inl rfl)
    (Or.inl rfl)
  exact h

/-- C5: for a day-element whose `day`, `month`, `year` attributes are
numeric strings (zero-padded or not) denoting a valid calendar date with an
unambiguous (≥ 100) year — the domain on which the external
`dateutil` parser is modelled — the resulting mapping key is the
zero-padded ISO date string of that calendar date. -/
theorem claim_C5 (el : XmlElem) (ys ms ds : String) (y m d : Nat)
    (hyattr : attribGet el "year" = some ys)
    (hmattr : attribGet el "month" = some ms)
    (hdattr : attribGet el "day" = some ds)
    (hy : strToNat? ys = some y) (hm : strToNat? ms = some m)
    (hd : strToNat? ds = some d)
    (hrange : 100 ≤ y ∧ 1 ≤ m ∧ m ≤ 12 ∧ 1 ≤ d ∧ d ≤ daysInMonth y m) :
    dayKey el = Except.ok (isoDateStr y m d) := by
  unfold dayKey
  rw [hyattr, hmattr, hdattr]
  simp only [parse_ymd, hy, hm, hd]
  rw [if_pos hrange]
  rfl

/-- C5 witness: attributes `day=5 month=3 year=2020` yield the key
`"2020-03-05"`. -/
theorem claim_C5_witness : dayKey c5el = Except.ok "2020-03-05" := by
  have h := claim_C5 c5el "2020" "3" "5" 2020 3 5 rfl rfl rfl rfl rfl rfl
    (by decide)
  have h2 : isoDateStr 2020 3 5 = "2020-03-05" := by decide
  rw [h2] at h
  exact h

/-- C9: for every delimited-text fetch whose parsed body has a header row
and a first data row with at least four columns, `update` succeeds and the
metadata mapping is rebuilt wholesale from columns 0-3 of the first data
row as longitude, latitude, name, climate_identifier (all strings), with no
other metadata keys; the raw body is retained as the station-data
payload. -/
theorem claim_C9 (s : ECState) (body : String) (hdr : List String)
    (a b c d : String) (restRow : List String) (restRows : List (List String))
    (hrows : csvRows body = hdr :: (a :: b :: c :: d :: restRow) :: restRows) :
    updateCSV s body =
      Except.ok { s with
                  station_data := StationDataVal.raw body,
                  metadata := [("longitude", some a), ("latitude", some b),
                               ("name", some c),
                               ("climate_identifier", some d)] } := by
  unfold updateCSV
  rw [hrows]
  rfl

/-- C9 witness: the data row `-75.1,45.2,TORONTO,6158355,...` yields exactly
the four metadata keys with those string values. -/
theorem claim_C9_witness :
    updateCSV c9s c9body =
      Except.ok { c9s with
                  station_data := StationDataVal.raw c9body,
                  metadata := [("longitude", some "-75.1"),
                               ("latitude", some "45.2"),
                               ("name", some "TORONTO"),
                               ("climate_identifier", some "6158355")] } :=
  claim_C9 c9s c9body ["h1", "h2", "h3", "h4", "h5"] "-75.1" "45.2" "TORONTO"
    "6158355" ["9.9"] [] (by decide)

/-- C10: for a measurement kind whose registry entry carries a (non-empty)
`attribute` override and a present, non-empty source element, the
field-extraction helper returns the raw string value of that attribute (or
null when the attribute is missing), applies no int/float coercion, and
records no unit key even when the element carries a `units` attribute. -/
theorem claim_C10 (meta : FieldMeta) (el e : XmlElem) (t a language : String)
    (hov : meta.attrOverride = some a) (hne : a ≠ "")
    (hfind : findPath el meta.xpath = some e) (htext : e.text = some t)
    (hlang : language = "english" ∨ language = "french") :
    get_stationdata meta el language =
      Except.ok { value := (attribGet e a).elim PyVal.none PyVal.str,
                  unit := Option.none,
                  label := if language = "english" then meta.english
                           else meta.french } := by
  rw [get_stationdata_eq_elem language hfind, gsElem_eq_text language htext,
    gsText_eq_attr e t language hov hne]
  exact gsAttr_eval meta e a language hlang

/-- C10 witness: an override entry reading attribute `dir` surfaces the raw
string `"north"` with no unit key although the element carries
`units="mm"`. -/
theorem claim_C10_witness :
    get_stationdata c10meta c10el "english" =
      Except.ok { value := PyVal.str "north", unit := Option.none,
                  label := "Gust" } := by
  have h := claim_C10 c10meta c10el c10e "77" "dir" "english" rfl (by decide)
    rfl rfl (Or.inl rfl)
  exact h

/-- C6: for every registered measurement kind with a present element of
text `t`, a float-typed kind parses the text after replacing the comma
decimal separator with a period (so `"1,5"` parses to the value 1.5),
while an int-typed kind parses the text directly without that
substitution. -/
theorem claim_C6 (s : String) (meta : FieldMeta) (el e : XmlElem)
    (t language : String) (q : Rat) (n : Int)
    (hreg : (s, meta) ∈ stationdata_meta)
    (hfind : findPath el meta.xpath = some e) (htext : e.text = some t)
    (hlang : language = "english" ∨ language = "french") :
    (meta.vtype = "float" → pyFloat? (replaceComma t) = some q →
      get_stationdata meta el language =
        Except.ok { value := PyVal.float q, unit := unitAttr e,
                    label := if language = "english" then meta.english
                             else meta.french }) ∧
    (meta.vtype = "int" → pyInt? t = some n →
      get_stationdata meta el language =
        Except.ok { value := PyVal.int n, unit := unitAttr e,
                    label := if language = "english" then meta.english
                             else meta.french }) := by
  have hov : meta.attrOverride = Option.none :=
    (show ∀ p ∈ stationdata_meta, p.2.attrOverride = Option.none by decide)
      (s, meta) hreg
  rw [get_stationdata_eq_elem language hfind, gsElem_eq_text language htext,
    gsText_eq_coerce e t language hov]
  constructor
  · intro hv hp
    exact gsCoerce_eval e language (coerceText_float hv hp) hlang
  · intro hv hp
    exact gsCoerce_eval e language (coerceText_int hv hp) hlang

/-- C6 witness: `totalrain` text `"1,5"` extracts to the float value
`1.5 = 3/2`. -/
theorem claim_C6_witness :
    get_stationdata c6meta c6el "english" =
      Except.ok { value := PyVal.float (3 / 2), unit := Option.none,
                  label := "Total Rain" } := by
  have hp : pyFloat? (replaceComma "1,5") = some (3 / 2 : Rat) := by
    simp [replaceComma, pyFloat?, parseDecimal?, splitOnChar, digitsToNat?,
      digitsToNatAux]
    norm_num
  have h := (claim_C6 "totalrain" c6meta c6el c6child "1,5" "english" (3 / 2) 0
    (by decide) rfl rfl (Or.inl rfl)).1 rfl hp
  exact h

/-- C7 (amended): for every registered measurement kind and present,
non-empty source element, a successful extraction records `unit` equal to
the element's `units` attribute exactly when that attribute is present and
non-empty; an absent or empty `units` attribute yields no unit key. (The
original claim fails on an empty `units` attribute, which the code's
truthiness check drops — see the counterexample.) -/
theorem claim_C7 (s : String) (meta : FieldMeta) (el e : XmlElem)
    (t language : String) (r : StationDatum)
    (hreg : (s, meta) ∈ stationdata_meta)
    (hfind : findPath el meta.xpath = some e) (htext : e.text = some t)
    (hok : get_stationdata meta el language = Except.ok r) :
    r.unit = match attribGet e "units" with
             | some u => if u = "" then Option.none else some u
             | Option.none => Option.none := by
  have hov : meta.attrOverride = Option.none :=
    (show ∀ p ∈ stationdata_meta, p.2.attrOverride = Option.none by decide)
      (s, meta) hreg
  rw [get_stationdata_eq_elem language hfind, gsElem_eq_text language htext,
    gsText_eq_coerce e t language hov] at hok
  unfold gsCoerce at hok
  obtain ⟨v, hcv, h2⟩ := exceptBind_ok hok
  obtain ⟨l, hl, h3⟩ := exceptBind_ok h2
  injection h3 with h4
  rw [← h4]
  rfl

/-- C7 witness: a `units="deg"` attribute surfaces `unit = "deg"`. -/
theorem claim_C7_witness :
    ({ value := PyVal.int 5, unit := some "deg",
       label := "Direction of Maximum Gust" } : StationDatum).unit =
      match attribGet c7e2 "units" with
      | some u => if u = "" then Option.none else some u
      | Option.none => Option.none :=
  claim_C7 "dirofmaxgust" c7meta c7el2 c7e2 "5" "english" _ (by decide) rfl
    rfl (by decide)

/-- C7 counterexample: the element `c7e` carries a `units` attribute (with
value `""`), yet the extracted record contains no unit key, contradicting
the claim that carrying a units attribute always surfaces it. -/
theorem claim_C7_counterexample :
    attribGet c7e "units" = some "" ∧
    get_stationdata c7meta c7el "english" =
      Except.ok { value := PyVal.int 5, unit := Option.none,
                  label := "Direction of Maximum Gust" } := by
  constructor
  · decide
  · decide

/-- C2: a successfully-built day record has exactly the 11 registered
measurement kinds as its keys, in registry order, regardless of which
child elements the day-element contains (unregistered children contribute
no key), and every registered kind whose source element is absent appears
with a null value. -/
theorem claim_C2 (el : XmlElem) (language : String) (r : DailyRecord)
    (hok : build_station_data el language = Except.ok r) :
    r.map Prod.fst =
      ["maxtemp", "mintemp", "meantemp", "heatdegdays", "cooldegdays",
       "totalrain", "totalsnow", "totalprecipitation", "snowonground",
       "dirofmaxgust", "speedofmaxgust"] ∧
    ∀ s meta, (s, meta) ∈ stationdata_meta →
      findPath el meta.xpath = Option.none →
      dictGet r s =
        some { value := PyVal.none, unit := Option.none,
               label := if language = "english" then meta.english
                        else meta.french } := by
  have hnd : (stationdata_meta.map Prod.fst).Nodup := by decide
  constructor
  · rw [buildAux_keys stationdata_meta [] r hnd
      (fun p _ kv hkv => absurd hkv (List.not_mem_nil kv)) hok]
    rfl
  · intro s meta hmem hmiss
    obtain ⟨d, hget, hdg⟩ :=
      buildAux_mem stationdata_meta [] r hnd hok s meta hmem
    have hlang := get_stationdata_ok_lang hget
    have hmval := get_stationdata_missing meta el language hlang (Or.inl hmiss)
    have hdr2 := hget.symm.trans hmval
    injection hdr2 with hdr3
    rw [hdg, hdr3]

/-- C2 witness: a day-element with no children still yields all 11 keys. -/
theorem claim_C2_witness :
    allNullEnglish.map Prod.fst =
      ["maxtemp", "mintemp", "meantemp", "heatdegdays", "cooldegdays",
       "totalrain", "totalsnow", "totalprecipitation", "snowonground",
       "dirofmaxgust", "speedofmaxgust"] :=
  (claim_C2 c2el "english" allNullEnglish (by decide)).1

theorem vStationId_not_int {v : Option PyArg}
    (h : ∀ n, v ≠ some (PyArg.int n)) :
    vStationId v = Except.error PyErr.validationError := by
  rcases v with _ | a
  · rfl
  · rcases a with n | s | q | _
    · exact absurd rfl (h n)
    · rfl
    · rfl
    · rfl

theorem vYear_out_of_range {n cy : Int} (h : n < 1840 ∨ cy < n) :
    vYear (some (PyArg.int n)) cy = Except.error PyErr.validationError := by
  simp only [vYear]
  rw [if_neg (by omega : ¬(1840 ≤ n ∧ n ≤ cy))]

theorem vLanguage_bad {v : PyArg} (h1 : v ≠ PyArg.str "english")
    (h2 : v ≠ PyArg.str "french") :
    vLanguage (some v) = Except.error PyErr.validationError := by
  rcases v with n | s | q | _
  · rfl
  · have hns : ¬(s = "english" ∨ s = "french") := by
      rintro (rfl | rfl)
      · exact h1 rfl
      · exact h2 rfl
    simp only [vLanguage]
    rw [if_neg hns]
  · rfl
  · rfl

theorem vFormat_bad {v : PyArg} (h1 : v ≠ PyArg.str "xml")
    (h2 : v ≠ PyArg.str "csv") :
    vFormat (some v) = Except.error PyErr.validationError := by
  rcases v with n | s | q | _
  · rfl
  · have hns : ¬(s = "xml" ∨ s = "csv") := by
      rintro (rfl | rfl)
      · exact h1 rfl
      · exact h2 rfl
    simp only [vFormat]
    rw [if_neg hns]
  · rfl
  · rfl

/-- C8: constructing the fetcher with a year outside 1840..currentYear, a
non-integer station_id, a language other than english/french, or a format
other than xml/csv raises a validation error; the constructor performs no
network access (fetching lives in the separate `update` operation) and the
error result carries no instance state. -/
theorem claim_C8 (k : InitKwargs) (cy : Int)
    (hbad :
      (∃ n, k.year = some (PyArg.int n) ∧ (n < 1840 ∨ cy < n)) ∨
      (∀ n, k.station_id ≠ some (PyArg.int n)) ∨
      (∃ v, k.language = some v ∧ v ≠ PyArg.str "english" ∧
        v ≠ PyArg.str "french") ∨
      (∃ v, k.format = some v ∧ v ≠ PyArg.str "xml" ∧ v ≠ PyArg.str "csv")) :
    ECHistorical_init k cy = Except.error PyErr.validationError := by
  unfold ECHistorical_init
  rcases hbad with ⟨n, hy, hr⟩ | hsid | ⟨v, hl, hl1, hl2⟩ | ⟨v, hf, hf1, hf2⟩
  · rcases vStationId_cases k.station_id with ⟨n0, hok⟩ | herr
    · rw [exceptBind_okRw _ hok, hy,
        exceptBind_errorRw _ (vYear_out_of_range hr)]
    · rw [exceptBind_errorRw _ herr]
  · rw [exceptBind_errorRw _ (vStationId_not_int hsid)]
  · rcases vStationId_cases k.station_id with ⟨n0, hok⟩ | herr
    · rw [exceptBind_okRw _ hok]
      rcases vYear_cases k.year cy with ⟨y0, hok2⟩ | herr2
      · rw [exceptBind_okRw _ hok2, hl,
          exceptBind_errorRw _ (vLanguage_bad hl1 hl2)]
      · rw [exceptBind_errorRw _ herr2]
    · rw [exceptBind_errorRw _ herr]
  · rcases vStationId_cases k.station_id with ⟨n0, hok⟩ | herr
    · rw [exceptBind_okRw _ hok]
      rcases vYear_cases k.year cy with ⟨y0, hok2⟩ | herr2
      · rw [exceptBind_okRw _ hok2]
        rcases vLanguage_cases k.language with ⟨l0, hok3⟩ | herr3
        · rw [exceptBind_okRw _ hok3, hf,
            exceptBind_errorRw _ (vFormat_bad hf1 hf2)]
        · rw [exceptBind_errorRw _ herr3]
      · rw [exceptBind_errorRw _ herr2]
    · rw [exceptBind_errorRw _ herr]

/-- C8 witness: `year = 1700` is rejected by validation. -/
theorem claim_C8_witness :
    ECHistorical_init c8k 2026 = Except.error PyErr.validationError :=
  claim_C8 c8k 2026 (Or.inl ⟨1700, rfl, Or.inl (by decide)⟩)

/-- C1 (amended): after two successive successful `update()` calls on a
freshly-constructed instance, the metadata equals — pointwise, as a Python
dict — what a single call with the second response would produce, in both
modes, and in CSV mode the whole resulting state equals the single-call
state; but in XML mode the station-data mapping is merged rather than
replaced: a date key produced by the second response maps to the second
response's record, while a date key produced only by the first response
survives unchanged. (The original claim that no entry from the first call
survives into the state after the second call fails — see the
counterexample.) -/
theorem claim_C1 (k : InitKwargs) (cy : Int) (s0 : ECState)
    (hinit : ECHistorical_init k cy = Except.ok s0) :
    (∀ (r1 r2 : XmlElem) (s1 s2 s2' : ECState),
      updateXML s0 r1 = Except.ok s1 →
      updateXML s1 r2 = Except.ok s2 →
      updateXML s0 r2 = Except.ok s2' →
      (∀ key, dictGet s2.metadata key = dictGet s2'.metadata key) ∧
      (∀ key, sdGet s2.station_data key =
        optFirst (sdGet s2'.station_data key) (sdGet s1.station_data key))) ∧
    (∀ (b1 b2 : String) (t1 t2 : ECState),
      updateCSV s0 b1 = Except.ok t1 →
      updateCSV t1 b2 = Except.ok t2 →
      updateCSV s0 b2 = Except.ok t2) := by
  obtain ⟨-, -, -, -, -, -, hmd0, hsd0⟩ := init_ok hinit
  constructor
  · intro r1 r2 s1 s2 s2' h1 h2 h2'
    obtain ⟨e1, d01, he1, hsd01, hs1⟩ := updateXML_ok h1
    obtain ⟨e2, d02, he2, hsd02, hs2⟩ := updateXML_ok h2
    obtain ⟨e2', d02', he2', hsd02', hs2'⟩ := updateXML_ok h2'
    rw [hsd0] at hsd01 hsd02'
    injection hsd01 with hd01
    injection hsd02' with hd02'
    subst hd01
    subst hd02'
    have hlang1 : s1.language = s0.language := by rw [hs1]
    rw [hlang1] at he2
    have he2eq := he2'.symm.trans he2
    injection he2eq with he2eq2
    subst he2eq2
    have hsd1tab : s1.station_data =
        StationDataVal.table (e1.foldl (fun d p => dictInsert d p.1 p.2) []) := by
      rw [hs1]
    rw [hsd1tab] at hsd02
    injection hsd02 with hd02
    have hm1 : s1.metadata =
        (xmlMetadataVals r1).foldl (fun d p => dictInsert d p.1 p.2)
          s0.metadata := by
      rw [hs1]
    have hm2 : s2.metadata =
        (xmlMetadataVals r2).foldl (fun d p => dictInsert d p.1 p.2)
          s1.metadata := by
      rw [hs2]
    have hst2 : s2.station_data =
        StationDataVal.table
          (e2'.foldl (fun d p => dictInsert d p.1 p.2) d02) := by
      rw [hs2]
    have hm2' : s2'.metadata =
        (xmlMetadataVals r2).foldl (fun d p => dictInsert d p.1 p.2)
          s0.metadata := by
      rw [hs2']
    have hst2' : s2'.station_data =
        StationDataVal.table
          (e2'.foldl (fun d p => dictInsert d p.1 p.2) []) := by
      rw [hs2']
    rw [← hd02] at hst2
    constructor
    · intro key
      rw [hm2, hm1, hm2', hmd0]
      rw [dictGet_foldl_insert, dictGet_foldl_insert, dictGet_foldl_insert]
      cases hL2 : lookupLast (xmlMetadataVals r2) key with
      | some u => rfl
      | none =>
        rw [optFirst_none, optFirst_none]
        have hL1 : lookupLast (xmlMetadataVals r1) key = Option.none :=
          lookupLast_map_none metadata_meta
            (fun p => (findPath r2 p.2).bind (fun e => e.text))
            (fun p => (findPath r1 p.2).bind (fun e => e.text)) key hL2
        rw [hL1, optFirst_none]
    · intro key
      rw [hst2, hst2', hsd1tab, sdGet_table, sdGet_table, sdGet_table]
      rw [dictGet_foldl_insert, dictGet_foldl_insert, dictGet_foldl_insert]
      cases lookupLast e2' key <;> cases lookupLast e1 key <;> rfl
  · intro b1 b2 t1 t2 h1 h2
    obtain ⟨a1, b1v, c1v, d1v, ht1, -⟩ := updateCSV_ok_shape h1
    obtain ⟨a2, b2v, c2v, d2v, ht2, huniv2⟩ := updateCSV_ok_shape h2
    rw [ht2, ht1]
    exact huniv2 s0

/-- C1 witness: the CSV clause at a concrete pair of bodies — the second
call's state equals the single-call state. -/
theorem claim_C1_witness : updateCSV c1s0csv c1b2 = Except.ok c1t2 :=
  (claim_C1 c1kcsv 2026 c1s0csv rfl).2 c1b1 c1b2 c1t1 c1t2 rfl rfl

/-- C1 counterexample: with XML responses `c1r1` (one day-element for
2000-01-01) and `c1r2` (no day-elements), the state after two successive
successful `update` calls still holds the first response's record under
`"2000-01-01"`, while a single call with the second response holds nothing
under that key — an entry from the first call survives the second. -/
theorem claim_C1_counterexample :
    (Except.map (fun st => sdGet st.station_data "2000-01-01")
      ((ECHistorical_init c1k 2026).bind (fun s0 =>
        (updateXML s0 c1r1).bind (fun s1 => updateXML s1 c1r2)))) =
      Except.ok (some allNullEnglish) ∧
    (Except.map (fun st => sdGet st.station_data "2000-01-01")
      ((ECHistorical_init c1k 2026).bind (fun s0 => updateXML s0 c1r2))) =
      Except.ok Option.none := by
  constructor
  · decide
  · decide
